import Mathlib

/-!
Verification of the swc_cxx_bindings boundary specification.

The repository ships one C++ source file, `examples/example.cpp`; the
boundary layer itself (the `swc::` entry points declared in `swc.h` and
implemented on the Rust side) is not part of the sources available here,
so those components are modelled from the specification, as noted on each
definition.  `example.cpp` is embedded directly.
-/

/-- Parsing dialect, as enumerated in the data model: one of TS, TSX, JS,
JSX, or the DEFAULT fallback for absent/unrecognized extensions. -/
inductive Dialect where
  | TS
  | TSX
  | JS
  | JSX
  | DEFAULT
deriving DecidableEq, Repr

/-- Modelled from the spec: the Dialect Resolver implementation is not
under the available sources.  The spec gives the extension table
`.ts -> TS, .tsx -> TSX, .js -> JS, .jsx -> JSX`, everything else (absent or
unrecognized extension) mapping to DEFAULT.  A file identifier is taken as
its character list; an identifier "has extension .ts" exactly when the
characters `.ts` are a suffix of it. -/
def resolveL (f : List Char) : Dialect :=
  if List.isSuffixOf ['.', 't', 's', 'x'] f then .TSX
  else if List.isSuffixOf ['.', 't', 's'] f then .TS
  else if List.isSuffixOf ['.', 'j', 's', 'x'] f then .JSX
  else if List.isSuffixOf ['.', 'j', 's'] f then .JS
  else .DEFAULT

/-- The Dialect Resolver on string file identifiers. -/
def resolve (f : String) : Dialect :=
  resolveL f.data

/-- Error taxonomy of the spec: ParseError, IOError, InternalError. -/
inductive ErrKind where
  | ParseError
  | IOError
  | InternalError
deriving DecidableEq, Repr

/-- A diagnostic delivered through the Error Slot: its kind and a
human-readable message. -/
structure Diag where
  kind : ErrKind
  msg : String
deriving DecidableEq, Repr

/-- The Error Slot: caller-owned mutable memory holding either the
"no error" sentinel (`none`) or an owned diagnostic. -/
abbrev Slot := Option Diag

/-- A returned Handle: `none` is the empty/null handle, `some s` an owned
string with contents `s`. -/
abbrev Handle := Option String

/-- Outcome of a call into the external Compiler Engine: normal output,
a grammar error, or an internal fault (the kind that would unwind or
abort if it were not intercepted at the boundary). -/
inductive EngineResult where
  | ok (out : String)
  | err (msg : String)
  | fault (msg : String)
deriving DecidableEq, Repr

/-- Modelled from the spec: the boundary layer that wraps every engine
call is not under the available sources.  Per the propagation policy it
converts each engine outcome into a returned Handle plus the new Error
Slot contents: on success the slot is left untouched, on a grammar error
a ParseError diagnostic is written, and an internal fault is caught and
converted to an InternalError diagnostic instead of unwinding. -/
def boundary (r : EngineResult) (slot : Slot) : Handle × Slot :=
  match r with
  | .ok out => (some out, slot)
  | .err m => (none, some ⟨.ParseError, m⟩)
  | .fault m => (none, some ⟨.InternalError, m⟩)

/-- Modelled from the spec: `transpileText` resolves the dialect from the
file identifier, runs the engine on the source text, and returns through
the boundary.  The engine itself is an external collaborator, passed as a
function argument. -/
def transpileText (engine : String → Dialect → EngineResult)
    (source fileId : String) (slot : Slot) : Handle × Slot :=
  boundary (engine source (resolve fileId)) slot

/-- Modelled from the spec: `transpileFile` reads the file contents via
the filesystem collaborator (`fs`, returning `none` when the file cannot
be read), then behaves as `transpileText`; an unreadable file yields an
IOError diagnostic and an empty handle. -/
def transpileFile (engine : String → Dialect → EngineResult)
    (fs : String → Option String) (fileId : String) (slot : Slot) :
    Handle × Slot :=
  match fs fileId with
  | none => (none, some ⟨.IOError, "failed to read " ++ fileId⟩)
  | some source => transpileText engine source fileId slot

/-- Modelled from the spec: `compileFile` is like `transpileFile` but its
compile semantics are a distinct Compiler Engine capability, so it takes
its own engine collaborator. -/
def compileFile (engine : String → Dialect → EngineResult)
    (fs : String → Option String) (fileId : String) (slot : Slot) :
    Handle × Slot :=
  match fs fileId with
  | none => (none, some ⟨.IOError, "failed to read " ++ fileId⟩)
  | some source => boundary (engine source (resolve fileId)) slot

/-- Modelled from the spec: `minifyJs` treats the input as JS and runs
the engine's minifier capability through the boundary. -/
def minifyJs (minifier : String → EngineResult) (source : String)
    (slot : Slot) : Handle × Slot :=
  boundary (minifier source) slot

/-- The all-or-nothing outcome shape required of every public operation:
either a complete handle is returned and the slot keeps its prior
contents, or the handle is empty and the slot holds a diagnostic. -/
def okOrErr (r : Handle × Slot) (slot0 : Slot) : Prop :=
  (r.1.isSome = true ∧ r.2 = slot0) ∨ (r.1 = none ∧ ∃ d, r.2 = some d)

/-- Two suffixes of the same list where the shorter is not a suffix of the
longer cannot coexist. -/
theorem suffix_excl {f a b : List Char} (ha : a <:+ f)
    (hlen : a.length ≤ b.length) (hnab : ¬ a <:+ b) : ¬ b <:+ f := by
  intro hb
  exact hnab (List.suffix_of_suffix_length_le ha hb hlen)

/-- Dual of `suffix_excl`: a shorter list that is not a suffix of a given
suffix of `f` cannot itself be a suffix of `f`. -/
theorem suffix_excl_rev {f a b : List Char} (ha : a <:+ f)
    (hlen : b.length ≤ a.length) (hnba : ¬ b <:+ a) : ¬ b <:+ f := by
  intro hb
  exact hnba (List.suffix_of_suffix_length_le hb ha hlen)

/-- Claim C3: the dialect resolver is a pure, total function from file
identifiers to dialects; identifiers ending in `.ts` resolve to TS,
`.tsx` to TSX, `.js` to JS, `.jsx` to JSX, identifiers ending in none of
these (absent or unrecognized extension) resolve to DEFAULT, and in
particular `resolve "a.tsx" = TSX`, `resolve "a.js" = JS`,
`resolve "a.unknown" = DEFAULT`. -/
theorem resolve_extension_table :
    (∀ f : List Char, ['.', 't', 's'] <:+ f → resolveL f = .TS) ∧
    (∀ f : List Char, ['.', 't', 's', 'x'] <:+ f → resolveL f = .TSX) ∧
    (∀ f : List Char, ['.', 'j', 's'] <:+ f → resolveL f = .JS) ∧
    (∀ f : List Char, ['.', 'j', 's', 'x'] <:+ f → resolveL f = .JSX) ∧
    (∀ f : List Char, ¬ ['.', 't', 's'] <:+ f → ¬ ['.', 't', 's', 'x'] <:+ f →
      ¬ ['.', 'j', 's'] <:+ f → ¬ ['.', 'j', 's', 'x'] <:+ f →
      resolveL f = .DEFAULT) ∧
    resolve "a.tsx" = .TSX ∧ resolve "a.js" = .JS ∧
    resolve "a.unknown" = .DEFAULT := by
  refine ⟨?_, ?_, ?_, ?_, ?_, by decide, by decide, by decide⟩
  · intro f h
    simp only [resolveL, List.isSuffixOf_iff_suffix]
    rw [if_neg (suffix_excl h (by decide) (by decide)), if_pos h]
  · intro f h
    simp only [resolveL, List.isSuffixOf_iff_suffix]
    rw [if_pos h]
  · intro f h
    simp only [resolveL, List.isSuffixOf_iff_suffix]
    rw [if_neg (suffix_excl h (by decide) (by decide)),
      if_neg (fun hb => (by decide : ¬ (['.', 't', 's'] = ['.', 'j', 's']))
        ((List.suffix_of_suffix_length_le hb h (by decide)).eq_of_length rfl)),
      if_neg (suffix_excl h (by decide) (by decide)), if_pos h]
  · intro f h
    simp only [resolveL, List.isSuffixOf_iff_suffix]
    rw [if_neg (fun hb => (by decide : ¬ (['.', 't', 's', 'x'] = ['.', 'j', 's', 'x']))
        ((List.suffix_of_suffix_length_le hb h (by decide)).eq_of_length rfl)),
      if_neg (suffix_excl_rev h (by decide) (by decide)), if_pos h]
  · intro f h1 h2 h3 h4
    simp only [resolveL, List.isSuffixOf_iff_suffix]
    rw [if_neg h2, if_neg h1, if_neg h4, if_neg h3]

/-- Witness for `resolve_extension_table` at concrete inputs. -/
theorem resolve_extension_table_witness :
    resolveL ['b', '.', 't', 's'] = .TS ∧
    resolveL ['b', '.', 'j', 's', 'x'] = .JSX ∧
    resolveL ['b'] = .DEFAULT :=
  ⟨resolve_extension_table.1 _ (by decide),
   resolve_extension_table.2.2.2.1 _ (by decide),
   resolve_extension_table.2.2.2.2.1 _ (by decide) (by decide) (by decide)
     (by decide)⟩

/-- Every boundary conversion satisfies the all-or-nothing shape. -/
theorem boundary_okOrErr (r : EngineResult) (slot : Slot) :
    okOrErr (boundary r slot) slot := by
  cases r <;> simp [boundary, okOrErr]

/-- The boundary writes the slot exactly on failure. -/
theorem boundary_slot (r : EngineResult) (slot : Slot) :
    ((boundary r slot).1.isSome = true → (boundary r slot).2 = slot) ∧
    ((boundary r slot).1 = none → ∃ d, (boundary r slot).2 = some d) := by
  cases r <;> simp [boundary]

/-- Claim C1: every public operation (transpileText, transpileFile,
compileFile, minifyJs), on every input and every starting slot, either
returns a complete owned string Handle with the Error Slot left unset
beyond its prior contents, or returns the empty/null Handle with the
Error Slot populated — never a garbage Handle with no error recorded. -/
theorem ops_all_or_nothing (engine : String → Dialect → EngineResult)
    (minifier : String → EngineResult) (fs : String → Option String)
    (source fileId : String) (slot : Slot) :
    okOrErr (transpileText engine source fileId slot) slot ∧
    okOrErr (transpileFile engine fs fileId slot) slot ∧
    okOrErr (compileFile engine fs fileId slot) slot ∧
    okOrErr (minifyJs minifier source slot) slot := by
  refine ⟨boundary_okOrErr _ _, ?_, ?_, boundary_okOrErr _ _⟩
  · unfold transpileFile
    cases hfs : fs fileId with
    | none => simp [okOrErr]
    | some src => exact boundary_okOrErr (engine src (resolve fileId)) slot
  · unfold compileFile
    cases hfs : fs fileId with
    | none => simp [okOrErr]
    | some src => exact boundary_okOrErr (engine src (resolve fileId)) slot

/-- Claim C2: for the calls that take an Error Slot (compileFile,
minifyJs), a successful call leaves the slot exactly as the caller stored
it, and a failed call writes a diagnostic into it; the operation never
writes to the slot on success. -/
theorem slot_discipline (engine : String → Dialect → EngineResult)
    (minifier : String → EngineResult) (fs : String → Option String)
    (source fileId : String) (slot : Slot) :
    (((compileFile engine fs fileId slot).1.isSome = true →
        (compileFile engine fs fileId slot).2 = slot) ∧
      ((compileFile engine fs fileId slot).1 = none →
        ∃ d, (compileFile engine fs fileId slot).2 = some d)) ∧
    (((minifyJs minifier source slot).1.isSome = true →
        (minifyJs minifier source slot).2 = slot) ∧
      ((minifyJs minifier source slot).1 = none →
        ∃ d, (minifyJs minifier source slot).2 = some d)) := by
  constructor
  · unfold compileFile
    cases hfs : fs fileId with
    | none => simp
    | some src => exact boundary_slot (engine src (resolve fileId)) slot
  · exact boundary_slot (minifier source) slot

/-- Witness for `slot_discipline`: a succeeding compileFile keeps the
caller's slot, a failing minifyJs writes a diagnostic. -/
theorem slot_discipline_witness :
    (compileFile (fun _ _ => .ok "out") (fun _ => some "src") "a.ts"
        none).2 = none ∧
    ∃ d, (minifyJs (fun _ => .err "bad") "x" none).2 = some d :=
  ⟨(slot_discipline (fun _ _ => .ok "out") (fun _ => .err "bad")
      (fun _ => some "src") "x" "a.ts" none).1.1 rfl,
   (slot_discipline (fun _ _ => .ok "out") (fun _ => .err "bad")
      (fun _ => some "src") "x" "a.ts" none).2.2 rfl⟩

/-- Claim C5: reading a file and transpiling its contents is the same as
the file entry point: whenever the filesystem yields `source` for `path`,
`transpileFile` produces exactly the result of `transpileText` on
`source` with the same file identifier. -/
theorem transpileFile_refines_transpileText
    (engine : String → Dialect → EngineResult)
    (fs : String → Option String) (path source : String) (slot : Slot)
    (hfs : fs path = some source) :
    transpileFile engine fs path slot =
      transpileText engine source path slot := by
  unfold transpileFile
  rw [hfs]

/-- Witness for `transpileFile_refines_transpileText` on a concrete
filesystem. -/
theorem transpileFile_refines_transpileText_witness :
    transpileFile (fun _ _ => .ok "out") (fun _ => some "let x = 1")
        "a.ts" none =
      transpileText (fun _ _ => .ok "out") "let x = 1" "a.ts" none :=
  transpileFile_refines_transpileText (fun _ _ => .ok "out")
    (fun _ => some "let x = 1") "a.ts" "let x = 1" none rfl

/-- Claim C6: when the named file cannot be read, transpileFile returns
the empty handle and an IOError diagnostic in the Error Slot; being a
total function of its inputs, the call always completes (never a
crash). -/
theorem transpileFile_missing_file
    (engine : String → Dialect → EngineResult)
    (fs : String → Option String) (path : String) (slot : Slot)
    (hfs : fs path = none) :
    (transpileFile engine fs path slot).1 = none ∧
    (transpileFile engine fs path slot).2 =
      some ⟨.IOError, "failed to read " ++ path⟩ := by
  unfold transpileFile
  rw [hfs]
  exact ⟨rfl, rfl⟩

/-- Witness for `transpileFile_missing_file` at the spec's scenario
input `/nonexistent/path.ts`. -/
theorem transpileFile_missing_file_witness :
    (transpileFile (fun _ _ => .ok "out") (fun _ => none)
        "/nonexistent/path.ts" none).1 = none ∧
    (transpileFile (fun _ _ => .ok "out") (fun _ => none)
        "/nonexistent/path.ts" none).2 =
      some ⟨.IOError, "failed to read " ++ "/nonexistent/path.ts"⟩ :=
  transpileFile_missing_file (fun _ _ => .ok "out") (fun _ => none)
    "/nonexistent/path.ts" none rfl

/-- Claim C7: no failure crosses the boundary by unwinding: the boundary
converter is a total function on all engine outcomes, and both grammar
errors and internal engine faults are converted into diagnostics
delivered through the Error Slot with an empty handle returned, for
every operation built on it. -/
theorem boundary_catches_all (engine : String → Dialect → EngineResult)
    (minifier : String → EngineResult) (source fileId : String)
    (slot : Slot) :
    (∀ m, boundary (.fault m) slot =
      (none, some ⟨.InternalError, m⟩)) ∧
    (∀ m, boundary (.err m) slot = (none, some ⟨.ParseError, m⟩)) ∧
    (∀ r : EngineResult, okOrErr (boundary r slot) slot) ∧
    (∀ m, engine source (resolve fileId) = .fault m →
      transpileText engine source fileId slot =
        (none, some ⟨.InternalError, m⟩)) ∧
    (∀ m, minifier source = .fault m →
      minifyJs minifier source slot =
        (none, some ⟨.InternalError, m⟩)) := by
  refine ⟨fun m => rfl, fun m => rfl, ?_, ?_, ?_⟩
  · intro r
    cases r <;> simp [boundary, okOrErr]
  · intro m hm
    unfold transpileText
    rw [hm]
    rfl
  · intro m hm
    unfold minifyJs
    rw [hm]
    rfl

/-- Witness for `boundary_catches_all`: an engine fault in minifyJs comes
back as an InternalError diagnostic. -/
theorem boundary_catches_all_witness :
    minifyJs (fun _ => .fault "stack overflow") "x" none =
      (none, some ⟨.InternalError, "stack overflow"⟩) :=
  (boundary_catches_all (fun _ _ => .ok "o")
    (fun _ => .fault "stack overflow") "x" "a.ts" none).2.2.2.2
    "stack overflow" rfl

/-- Modelled from the spec: the String Ownership Manager is not under the
available sources.  Its state is the set of live (allocated, not yet
released) handle identities plus a fresh-id counter. -/
structure StoreState where
  live : Finset Nat
  fresh : Nat
deriving DecidableEq

/-- The store invariant: every live handle id was issued before the
fresh counter. -/
def storeInv (s : StoreState) : Prop :=
  ∀ h ∈ s.live, h < s.fresh

/-- Modelled from the spec: `allocate` issues a boundary-crossing owned
buffer; ownership transfers once to the caller, so the new handle is
recorded live and stays live until the caller releases it. -/
def allocate (s : StoreState) : StoreState × Nat :=
  (⟨insert s.fresh s.live, s.fresh + 1⟩, s.fresh)

/-- Modelled from the spec: `release` accepts a live handle, frees its
backing storage deterministically, and the handle becomes invalid;
releasing a handle that is not live is a fault (`none`). -/
def release (s : StoreState) (h : Nat) : Option StoreState :=
  if h ∈ s.live then some ⟨s.live.erase h, s.fresh⟩ else none

/-- Claim C8: a handle returned by `allocate` is live (the engine never
implicitly frees it), allocation never frees any previously live handle,
and a single `release` of the returned handle completes without fault
and removes it from the live set — one caller-side release is necessary
and sufficient. -/
theorem allocate_release_once (s : StoreState) (hs : storeInv s) :
    (allocate s).2 ∈ (allocate s).1.live ∧
    (∀ g ∈ s.live, g ∈ (allocate s).1.live) ∧
    (∃ s1, release (allocate s).1 (allocate s).2 = some s1 ∧
      (allocate s).2 ∉ s1.live ∧
      ∀ g ∈ s.live, g ∈ s1.live) := by
  refine ⟨Finset.mem_insert_self _ _, fun g hg => Finset.mem_insert_of_mem hg,
    ⟨⟨(insert s.fresh s.live).erase s.fresh, s.fresh + 1⟩, ?_, ?_, ?_⟩⟩
  · unfold release allocate
    rw [if_pos (Finset.mem_insert_self _ _)]
  · exact Finset.not_mem_erase _ _
  · intro g hg
    exact Finset.mem_erase_of_ne_of_mem
      (fun hEq => absurd (hs g hg) (by rw [hEq]; exact lt_irrefl _))
      (Finset.mem_insert_of_mem hg)

/-- Witness for `allocate_release_once` starting from the empty store. -/
theorem allocate_release_once_witness :
    (allocate ⟨∅, 0⟩).2 ∈ (allocate ⟨∅, 0⟩).1.live ∧
    (∀ g ∈ (∅ : Finset Nat), g ∈ (allocate ⟨∅, 0⟩).1.live) ∧
    (∃ s1, release (allocate ⟨∅, 0⟩).1 (allocate ⟨∅, 0⟩).2 = some s1 ∧
      (allocate ⟨∅, 0⟩).2 ∉ s1.live ∧
      ∀ g ∈ (∅ : Finset Nat), g ∈ s1.live) :=
  allocate_release_once ⟨∅, 0⟩ (fun h hmem => absurd hmem (by simp))

/-- Whitespace characters relevant to JS token separation. -/
def isWs (c : Char) : Bool :=
  c == ' ' || c == '\n' || c == '\t' || c == '\r'

/-- Modelled from the spec: the minifier transform itself lives in the
engine, whose sources are not available here.  The spec describes it as
producing a shorter, syntactically equivalent single-line form of valid
JS; it is modelled as collapsing every run of whitespace (spaces,
newlines, tabs) into a single space, which shortens the text to one line
while preserving token boundaries. -/
def collapseWs : List Char → List Char
  | [] => []
  | c :: cs =>
    if isWs c then ' ' :: collapseWs (cs.dropWhile isWs)
    else c :: collapseWs cs
termination_by l => l.length
decreasing_by
  · exact Nat.lt_succ_of_le (List.dropWhile_suffix isWs).length_le
  · exact Nat.lt_succ_of_le (Nat.le_refl _)

/-- The minifier transform on strings. -/
def minify_js_transform (s : String) : String :=
  String.mk (collapseWs s.data)

/-- Whether a character list does not start with whitespace. -/
def headNotWs : List Char → Bool
  | [] => true
  | d :: _ => !isWs d

/-- Normal form of minified text: every whitespace character is a single
space followed by non-whitespace (or the end). -/
def collapsedB : List Char → Bool
  | [] => true
  | c :: cs => (if isWs c then c == ' ' && headNotWs cs else true) && collapsedB cs

/-- Dropping a whitespace prefix leaves a list not starting with
whitespace. -/
theorem dropWhile_head_not (l : List Char) :
    headNotWs (l.dropWhile isWs) = true := by
  induction l with
  | nil => rfl
  | cons c cs ih =>
    cases hc : isWs c with
    | true =>
      rw [List.dropWhile_cons_of_pos hc]
      exact ih
    | false =>
      rw [List.dropWhile_cons_of_neg (by simp [hc])]
      simp [headNotWs, hc]

/-- The transform preserves a non-whitespace head. -/
theorem headNotWs_collapseWs (m : List Char) (hm : headNotWs m = true) :
    headNotWs (collapseWs m) = true := by
  cases m with
  | nil => simp [collapseWs, headNotWs]
  | cons d ds =>
    have hd : isWs d = false := by simpa [headNotWs] using hm
    rw [show collapseWs (d :: ds) = d :: collapseWs ds from by
      simp [collapseWs, hd]]
    simp [headNotWs, hd]

/-- The transform always produces text in normal form. -/
theorem collapsedB_collapseWs (l : List Char) :
    collapsedB (collapseWs l) = true := by
  induction l using collapseWs.induct with
  | case1 => simp [collapseWs, collapsedB]
  | case2 c cs h ih =>
    rw [show collapseWs (c :: cs) = ' ' :: collapseWs (cs.dropWhile isWs)
      from by simp [collapseWs, h]]
    have h1 := headNotWs_collapseWs (cs.dropWhile isWs) (dropWhile_head_not cs)
    simp [collapsedB, isWs, h1, ih]
  | case3 c cs h ih =>
    rw [show collapseWs (c :: cs) = c :: collapseWs cs from by
      simp [collapseWs, h]]
    simp [collapsedB, h, ih]

/-- The transform is the identity on text already in normal form. -/
theorem collapseWs_of_collapsedB (l : List Char) (hl : collapsedB l = true) :
    collapseWs l = l := by
  induction l with
  | nil => simp [collapseWs]
  | cons c cs ih =>
    simp only [collapsedB, Bool.and_eq_true] at hl
    obtain ⟨h1, h2⟩ := hl
    cases hc : isWs c with
    | false =>
      rw [show collapseWs (c :: cs) = c :: collapseWs cs from by
        simp [collapseWs, hc]]
      rw [ih h2]
    | true =>
      simp only [hc, if_pos, Bool.and_eq_true, beq_iff_eq] at h1
      rw [show collapseWs (c :: cs) = ' ' :: collapseWs (cs.dropWhile isWs)
        from by simp [collapseWs, hc]]
      have hdw : cs.dropWhile isWs = cs := by
        cases cs with
        | nil => rfl
        | cons d ds =>
          have hd : isWs d = false := by simpa [headNotWs] using h1.2
          rw [List.dropWhile_cons_of_neg (by simp [hd])]
      rw [hdw, ih h2, h1.1]

/-- Claim C4: the minifier transform is idempotent: minifying already
minified text returns it unchanged, for every input string (in
particular for every valid JS input). -/
theorem minify_js_transform_idempotent (s : String) :
    minify_js_transform (minify_js_transform s) = minify_js_transform s := by
  show String.mk (collapseWs (collapseWs s.data)) = String.mk (collapseWs s.data)
  exact congrArg String.mk
    (collapseWs_of_collapsedB _ (collapsedB_collapseWs s.data))

/-- Identity of a string obtained from the boundary during a run of the
example program: the handle returned by `swc::transpile`, the handle
returned by `swc::compile_file`, the handle returned by
`swc::minify_js`, the diagnostics written into the error slot by a
failing `compile_file` or `minify_js`, and the indeterminate garbage the
uninitialized `error` variable may hold before any call. -/
inductive HandleId where
  | codeH
  | compiledH
  | minifiedH
  | errCompileH
  | errMinifyH
  | garbageH
deriving DecidableEq, Repr

/-- Singleton or empty list from an optional handle. -/
def optList : Option HandleId → List HandleId
  | none => []
  | some h => [h]

/-- Observable outcome of one run of the example program: its exit code,
the usage message written to standard error (if any), how many swc
boundary operations were invoked, which non-null strings were obtained
from the boundary, and which values were passed to `swc::free_string`
(free of a null handle is not recorded, matching free of `nullptr`
reaching no storage). -/
structure MainRun where
  exit : Nat
  usage : Option String
  opCalls : Nat
  obtained : List HandleId
  freed : List HandleId
deriving DecidableEq, Repr

/-- Embedding of `main` from `examples/example.cpp`.  `prog` is
`argv[0]` and `args` the remaining argv entries, so `argc` is
`args.length + 1`.  The boundary calls are abstracted by three booleans
saying whether `swc::transpile`, `swc::compile_file` and
`swc::minify_js` succeed on this run, and by `err0`, the indeterminate
initial contents of the uninitialized local `char *error`.  Lines 10-17:
with `argc < 2` the program prints a usage message naming `argv[0]` and
returns 1 before any swc call.  Lines 33-35: `transpile` is called on the
embedded TS snippet; `compile_file(argv[1], error)` feeds its returned
handle straight into `minify_js(..., error)`; per the Error Slot contract
a succeeding call leaves the slot untouched and a failing call writes a
diagnostic handle into it (a `minify_js` on a null input string fails).
Lines 40-48: if the slot is non-null its contents are freed, then `code`
and `js_code` are freed, and the program returns 0. -/
def exampleMain (prog : String) (args : List String)
    (transpileOk compileOk minifyOk : Bool) (err0 : Option HandleId) :
    MainRun :=
  match args with
  | [] => ⟨1, some ("Usage: " ++ prog ++ " <file_name>"), 0, [], []⟩
  | _ :: _ =>
    let code : Option HandleId :=
      if transpileOk then some .codeH else none
    let cres : Option HandleId × Option HandleId :=
      if compileOk then (some .compiledH, err0) else (none, some .errCompileH)
    let mres : Option HandleId × Option HandleId :=
      match cres.1 with
      | some _ =>
        if minifyOk then (some .minifiedH, cres.2) else (none, some .errMinifyH)
      | none => (none, some .errMinifyH)
    let js_code := mres.1
    let errFinal := mres.2
    let obtained := optList code ++ optList cres.1 ++ optList js_code ++
      (if compileOk then [] else [HandleId.errCompileH]) ++
      (if compileOk && minifyOk then [] else [HandleId.errMinifyH])
    let freed := (match errFinal with | some e => [e] | none => []) ++
      optList code ++ optList js_code
    ⟨0, none, 3, obtained, freed⟩

/-- Claim C9: with fewer than two argv entries the example program writes
a usage message naming `argv[0]` to standard error and returns exit code
1 without invoking any swc operation; with two or more argv entries it
proceeds to the transpile / compile / minify sequence (three boundary
calls) and returns 0. -/
theorem exampleMain_usage (prog : String)
    (transpileOk compileOk minifyOk : Bool) (err0 : Option HandleId) :
    (exampleMain prog [] transpileOk compileOk minifyOk err0 =
      ⟨1, some ("Usage: " ++ prog ++ " <file_name>"), 0, [], []⟩) ∧
    (∀ (a : String) (rest : List String),
      (exampleMain prog (a :: rest) transpileOk compileOk minifyOk
          err0).usage = none ∧
      (exampleMain prog (a :: rest) transpileOk compileOk minifyOk
          err0).opCalls = 3 ∧
      (exampleMain prog (a :: rest) transpileOk compileOk minifyOk
          err0).exit = 0) := by
  exact ⟨rfl, fun a rest => ⟨rfl, rfl, rfl⟩⟩

/-- Claim C10 fails on the code: in the run where both `compile_file`
and `minify_js` succeed (and the slot starts null), the handle returned
by `compile_file` is obtained from the boundary but is passed straight
into `minify_js` and never given to `free_string`, while `code` and
`js_code` are each freed once.  This contradicts the claim (and the
spec's Handle invariant) that every boundary string is freed exactly
once. -/
theorem exampleMain_leaks_compiled_handle :
    (exampleMain "example" ["input.ts"] true true true none).exit = 0 ∧
    (exampleMain "example" ["input.ts"] true true true
        none).obtained.count .compiledH = 1 ∧
    (exampleMain "example" ["input.ts"] true true true
        none).freed.count .compiledH = 0 ∧
    (exampleMain "example" ["input.ts"] true true true
        none).freed.count .codeH = 1 ∧
    (exampleMain "example" ["input.ts"] true true true
        none).freed.count .minifiedH = 1 := by
  refine ⟨rfl, ?_, ?_, ?_, ?_⟩ <;> decide
